import Mathlib

/-!
Verification of the Bezier curve editor (`bezier-editor.js`).

The editor keeps a chain of cubic Bezier segments (anchor points plus one
control-point pair per segment), supports splitting a segment to insert an
anchor, dragging points, and sampling the curve into a fixed-length
quantized array.  All numeric state is embedded as rationals; the
JavaScript functions are translated one-to-one below, with loops rendered
as fuel-bounded recursion (the fuel matches the source's explicit
iteration caps, or bounds the loop the same way the source's loop
condition does).
-/

namespace BezierEditor

/-- A 2D point `{x, y}` in canvas pixel space. -/
@[ext]
structure Point where
  x : ℚ
  y : ℚ
deriving DecidableEq

/-- A control-point pair `{cp1x, cp1y, cp2x, cp2y}` for one segment. -/
@[ext]
structure ControlPair where
  cp1x : ℚ
  cp1y : ℚ
  cp2x : ℚ
  cp2y : ℚ
deriving DecidableEq

/-- A complete 4-point cubic segment, as returned by `subdivideBezier`. -/
structure Segment4 where
  p0 : Point
  p1 : Point
  p2 : Point
  p3 : Point
deriving DecidableEq

/-- The pair of segments returned by `subdivideBezier`. -/
structure SplitResult where
  first : Segment4
  second : Segment4
deriving DecidableEq

/-- `Math.abs`. -/
def jsAbs (q : ℚ) : ℚ := if q < 0 then -q else q

/-- De Casteljau's algorithm for splitting a Bezier segment at `t`
(`subdivideBezier` in the source). -/
def subdivideBezier (p0 p1 p2 p3 : Point) (t : ℚ) : SplitResult :=
  let q0 : Point := ⟨p0.x + (p1.x - p0.x) * t, p0.y + (p1.y - p0.y) * t⟩
  let q1 : Point := ⟨p1.x + (p2.x - p1.x) * t, p1.y + (p2.y - p1.y) * t⟩
  let q2 : Point := ⟨p2.x + (p3.x - p2.x) * t, p2.y + (p3.y - p2.y) * t⟩
  let r0 : Point := ⟨q0.x + (q1.x - q0.x) * t, q0.y + (q1.y - q0.y) * t⟩
  let r1 : Point := ⟨q1.x + (q2.x - q1.x) * t, q1.y + (q2.y - q1.y) * t⟩
  let s0 : Point := ⟨r0.x + (r1.x - r0.x) * t, r0.y + (r1.y - r0.y) * t⟩
  { first := ⟨p0, q0, r0, s0⟩, second := ⟨s0, r1, q2, p3⟩ }

/-- Point on a cubic Bezier curve at parameter `t`
(`getBezierPoint` in the source). -/
def getBezierPoint (t : ℚ) (p0 p1 p2 p3 : Point) : Point :=
  let mt := 1 - t
  let mt2 := mt * mt
  let mt3 := mt2 * mt
  let t2 := t * t
  let t3 := t2 * t
  { x := mt3 * p0.x + 3 * mt2 * t * p1.x + 3 * mt * t2 * p2.x + t3 * p3.x,
    y := mt3 * p0.y + 3 * mt2 * t * p1.y + 3 * mt * t2 * p2.y + t3 * p3.y }

/-- The iteration cap of the bisection loop in `findYatX`. -/
def max_iterations : ℕ := 100

/-- The bisection loop inside `findYatX`, with the remaining iteration
count as fuel; the state is `(t_low, t_high, t_mid)` and the result is the
final `t_mid` (the source breaks out of the loop and then evaluates the
curve at `t_mid`). -/
def findYatXGo (x : ℚ) (p0 p1 p2 p3 : Point) (tol : ℚ) :
    ℕ → ℚ → ℚ → ℚ → ℚ
  | 0, _, _, t_mid => t_mid
  | n + 1, t_low, t_high, t_mid =>
    let pt_mid := getBezierPoint t_mid p0 p1 p2 p3
    if jsAbs (pt_mid.x - x) < tol then t_mid
    else
      let lh :=
        if p0.x < p3.x then
          (if pt_mid.x < x then (t_mid, t_high) else (t_low, t_mid))
        else
          (if x < pt_mid.x then (t_mid, t_high) else (t_low, t_mid))
      findYatXGo x p0 p1 p2 p3 tol n lh.1 lh.2 ((lh.1 + lh.2) / 2)

/-- Approximate Y value on a cubic Bezier curve for a given X
(`findYatX` in the source, default tolerance 0.01 passed explicitly). -/
def findYatX (x : ℚ) (p0 p1 p2 p3 : Point) (tol : ℚ) : ℚ :=
  let minX := min p0.x p3.x
  let maxX := max p0.x p3.x
  if x ≤ minX + tol then (getBezierPoint 0 p0 p1 p2 p3).y
  else if maxX - tol ≤ x then (getBezierPoint 1 p0 p1 p2 p3).y
  else
    (getBezierPoint (findYatXGo x p0 p1 p2 p3 tol max_iterations 0 1 (1 / 2))
      p0 p1 p2 p3).y

/-- Squared distance between two points (`distSq` in the source). -/
def distSq (p1 p2 : Point) : ℚ := (p1.x - p2.x) ^ 2 + (p1.y - p2.y) ^ 2

/-- The `{t, distSq}` record returned by `findClosestPointOnSegment`. -/
structure ClosestResult where
  t : ℚ
  distSq : ℚ
deriving DecidableEq

/-- Closest point on a Bezier segment to a point `p`, by uniform sampling
(`findClosestPointOnSegment` in the source; `steps` defaults to 30 at the
call site). -/
def findClosestPointOnSegment (p p0 p1 p2 p3 : Point) (steps : ℕ) :
    ClosestResult :=
  (List.range steps).foldl
    (fun acc j =>
      let i : ℕ := j + 1
      let t : ℚ := (i : ℚ) / (steps : ℚ)
      let pt := getBezierPoint t p0 p1 p2 p3
      let dSq := distSq p pt
      if dSq < acc.distSq then ⟨t, dSq⟩ else acc)
    ⟨0, distSq p p0⟩

/-- The tag of a selected point (`selectedPoint.type` in the source, where
`null` is represented by `Option.none`). -/
inductive SelKind where
  | anchor
  | control
deriving DecidableEq

/-- The selection record `{ type, index, handle }`. -/
structure Selection where
  kind : Option SelKind
  index : ℤ
  handle : ℕ
deriving DecidableEq

/-- `{ type: null, index: -1, handle: 0 }`. -/
def noSelection : Selection := ⟨none, -1, 0⟩

/-- The mutable editor state of the IIFE: the `anchors` and `controls`
arrays, the selection, the drag flag and the drag offsets. -/
structure EditorState where
  anchors : List Point
  controls : List ControlPair
  selectedPoint : Selection
  isDraggingBezierPoint : Bool
  dragOffsetX : ℚ
  dragOffsetY : ℚ
deriving DecidableEq

/-- The host-supplied globals read by the editor: canvas geometry, output
length, sampling geometry and the external quantization function. -/
structure Globals where
  baseWidth : ℚ
  baseHeight : ℚ
  dpr : ℚ
  currentLength : ℕ
  cellWidth : ℚ
  stepHeight : ℚ
  centerY : ℚ
  currentCenterValue : ℚ
  quantizeValue : ℚ → ℚ

/-- Click detection radius (`hitThreshold` in the source). -/
def hitThreshold : ℚ := 12

/-- Fallback point for out-of-range list reads (the JS code never reads
out of range in the states our theorems quantify over). -/
def defaultPoint : Point := ⟨0, 0⟩

/-- Fallback control pair for out-of-range list reads. -/
def defaultControl : ControlPair := ⟨0, 0, 0, 0⟩

/-- `initializeBezier`: reset to two anchors on the vertical midline and a
single control pair at horizontal thirds; clear selection and drag flag. -/
def initializeBezier (g : Globals) (s : EditorState) : EditorState :=
  let currentCenterY := g.baseHeight / 2
  { s with
    anchors := [⟨0, currentCenterY⟩, ⟨g.baseWidth, currentCenterY⟩],
    controls := [⟨g.baseWidth / 3, currentCenterY, g.baseWidth * 2 / 3,
      currentCenterY⟩],
    selectedPoint := noSelection,
    isDraggingBezierPoint := false }

/-- The sampler's `while` loop advancing the segment cursor while the
target X is beyond the next anchor's X; the fuel (instantiated with
`anchors.length`, an upper bound on the possible advances) makes the
recursion structural. -/
def advanceSegIdx (anchors : List Point) (targetX : ℚ) :
    ℕ → ℕ → ℕ
  | 0, segIdx => segIdx
  | fuel + 1, segIdx =>
    if segIdx < anchors.length - 2 ∧
        (anchors.getD (segIdx + 1) defaultPoint).x < targetX then
      advanceSegIdx anchors targetX fuel (segIdx + 1)
    else segIdx

/-- One loop body of `generateWaveformFromBezier`: given the target X of a
column and the incoming segment cursor, produce the resolved `foundY` and
the outgoing cursor.  (The source's `segmentIndex >= 0` test and its
`else` fallback are unreachable: the cursor is a clamped non-negative
index, which the embedding tracks as `ℕ`.) -/
def columnY (g : Globals) (anchors : List Point) (controls : List ControlPair)
    (targetX : ℚ) (segIdx0 : ℕ) : ℚ × ℕ :=
  let segIdx1 := if targetX < (anchors.getD segIdx0 defaultPoint).x then 0
    else segIdx0
  let segIdx2 := advanceSegIdx anchors targetX anchors.length segIdx1
  let segIdx := min segIdx2 (anchors.length - 2)
  let p0 := anchors.getD segIdx defaultPoint
  let p3 := anchors.getD (segIdx + 1) defaultPoint
  let cp := controls.getD segIdx defaultControl
  let minX := min p0.x p3.x
  let maxX := max p0.x p3.x
  let tolerance : ℚ := 1 / 100
  let foundY :=
    if jsAbs (p0.x - p3.x) < tolerance then
      (if jsAbs (targetX - p0.x) < g.cellWidth / 2 then (p0.y + p3.y) / 2
       else if targetX < p0.x then p0.y else p3.y)
    else if minX - tolerance ≤ targetX ∧ targetX ≤ maxX + tolerance then
      findYatX targetX p0 ⟨cp.cp1x, cp.cp1y⟩ ⟨cp.cp2x, cp.cp2y⟩ p3 (1 / 100)
    else if targetX < minX then p0.y
    else p3.y
  (foundY, segIdx)

/-- The sampling loop of `generateWaveformFromBezier`: `n` remaining
columns, current column index `i`, current segment cursor. -/
def sampleColumnsGo (g : Globals) (anchors : List Point)
    (controls : List ControlPair) : ℕ → ℕ → ℕ → List ℚ
  | 0, _, _ => []
  | n + 1, i, segIdx =>
    let targetX := ((i : ℚ) + 1 / 2) * g.cellWidth
    let r := columnY g anchors controls targetX segIdx
    r.1 :: sampleColumnsGo g anchors controls n (i + 1) r.2

/-- `generateWaveformFromBezier`: with fewer than two anchors, fill the
output with `currentCenterValue`; otherwise sample every column and map
each resolved Y through `(baseHeight - y) / stepHeight` and the external
quantization function. -/
def generateWaveformFromBezier (g : Globals) (s : EditorState) : List ℚ :=
  if s.anchors.length < 2 then
    List.replicate g.currentLength g.currentCenterValue
  else
    (sampleColumnsGo g s.anchors s.controls g.currentLength 0 0).map
      (fun foundY => g.quantizeValue ((g.baseHeight - foundY) / g.stepHeight))

/-- The scan in `addBezierPoint` over all segments for the closest curve
point within the squared threshold; the accumulator is
`(minDistSq, bestT, bestSegment)`, initially
`((hitThreshold * 1.5 / dpr)^2, -1, -1)`. -/
def bestSplitScan (g : Globals) (pos : Point) (s : EditorState) :
    ℚ × ℚ × ℤ :=
  (List.range (s.anchors.length - 1)).foldl
    (fun acc seg =>
      let p0 := s.anchors.getD seg defaultPoint
      let p3 := s.anchors.getD (seg + 1) defaultPoint
      let cp := s.controls.getD seg defaultControl
      let closest := findClosestPointOnSegment pos p0 ⟨cp.cp1x, cp.cp1y⟩
        ⟨cp.cp2x, cp.cp2y⟩ p3 30
      if closest.distSq < acc.1 then (closest.distSq, closest.t, (seg : ℤ))
      else acc)
    ((hitThreshold * (3 / 2) / g.dpr) ^ 2, -1, -1)

/-- `addBezierPoint`: find the best segment to split; if none, do nothing;
if the split point would land within squared distance 1 of either segment
endpoint, do nothing; otherwise split the segment with `subdivideBezier`,
splice the new anchor and the second control pair in, overwrite the
original control pair with the first one, and select the new anchor. -/
def addBezierPoint (g : Globals) (pos : Point) (s : EditorState) :
    EditorState :=
  let scan := bestSplitScan g pos s
  let bestT := scan.2.1
  let bestSegment := scan.2.2
  if bestSegment = -1 then s
  else
    let b := bestSegment.toNat
    let p0 := s.anchors.getD b defaultPoint
    let p3 := s.anchors.getD (b + 1) defaultPoint
    let cp := s.controls.getD b defaultControl
    let split := subdivideBezier p0 ⟨cp.cp1x, cp.cp1y⟩ ⟨cp.cp2x, cp.cp2y⟩ p3
      bestT
    let newAnchor := split.first.p3
    if distSq newAnchor p0 < 1 ∨ distSq newAnchor p3 < 1 then s
    else
      let controls1 : ControlPair := ⟨split.first.p1.x, split.first.p1.y,
        split.first.p2.x, split.first.p2.y⟩
      let controls2 : ControlPair := ⟨split.second.p1.x, split.second.p1.y,
        split.second.p2.x, split.second.p2.y⟩
      { s with
        anchors := s.anchors.insertIdx (b + 1) newAnchor,
        controls := (s.controls.insertIdx (b + 1) controls2).set b controls1,
        selectedPoint := ⟨some SelKind.anchor, (b : ℤ) + 1, 0⟩ }

/-- `bezierMouseMove`: drag update.  No-op unless dragging with a live
selection; clamp the candidate position to the canvas; pin X for the first
and last anchor; for an anchor drag move the anchor and translate the
adjoining control points by the same delta; for a control drag move just
that handle. -/
def bezierMouseMove (g : Globals) (pos : Point) (s : EditorState) :
    EditorState :=
  if s.isDraggingBezierPoint = false ∨ s.selectedPoint.kind = none then s
  else
    let newX := pos.x - s.dragOffsetX
    let newY := pos.y - s.dragOffsetY
    let clampedY := max 0 (min g.baseHeight newY)
    let clampedX0 := max 0 (min g.baseWidth newX)
    let clampedX :=
      if s.selectedPoint.kind = some SelKind.anchor ∧
          (s.selectedPoint.index = 0 ∨
            s.selectedPoint.index = (s.anchors.length : ℤ) - 1) then
        (s.anchors.getD s.selectedPoint.index.toNat defaultPoint).x
      else clampedX0
    match s.selectedPoint.kind with
    | some SelKind.anchor =>
      let index := s.selectedPoint.index.toNat
      let oldp := s.anchors.getD index defaultPoint
      let deltaX := clampedX - oldp.x
      let deltaY := clampedY - oldp.y
      let anchors2 := s.anchors.set index ⟨clampedX, clampedY⟩
      let controls2 :=
        if 0 < s.selectedPoint.index then
          let c := s.controls.getD (index - 1) defaultControl
          s.controls.set (index - 1)
            ⟨c.cp1x, c.cp1y, c.cp2x + deltaX, c.cp2y + deltaY⟩
        else s.controls
      let controls3 :=
        if s.selectedPoint.index < (s.controls.length : ℤ) then
          let c := controls2.getD index defaultControl
          controls2.set index
            ⟨c.cp1x + deltaX, c.cp1y + deltaY, c.cp2x, c.cp2y⟩
        else controls2
      { s with anchors := anchors2, controls := controls3 }
    | some SelKind.control =>
      let index := s.selectedPoint.index.toNat
      let c := s.controls.getD index defaultControl
      let c2 : ControlPair :=
        if s.selectedPoint.handle = 1 then ⟨clampedX, clampedY, c.cp2x, c.cp2y⟩
        else ⟨c.cp1x, c.cp1y, clampedX, clampedY⟩
      { s with controls := s.controls.set index c2 }
    | none => s

/-- The split-point candidate computed by `addBezierPoint` for the best
segment found by the scan (the curve point at the best parameter). -/
def splitCandidate (g : Globals) (pos : Point) (s : EditorState) : Point :=
  let scan := bestSplitScan g pos s
  let b := scan.2.2.toNat
  let p0 := s.anchors.getD b defaultPoint
  let p3 := s.anchors.getD (b + 1) defaultPoint
  let cp := s.controls.getD b defaultControl
  (subdivideBezier p0 ⟨cp.cp1x, cp.cp1y⟩ ⟨cp.cp2x, cp.cp2y⟩ p3
    scan.2.1).first.p3

/-- The X coordinate of the curve is strictly increasing in the parameter
over `[0, 1]`. -/
def strictMonoXOn (p0 p1 p2 p3 : Point) : Prop :=
  ∀ a b : ℚ, 0 ≤ a → a < b → b ≤ 1 →
    (getBezierPoint a p0 p1 p2 p3).x < (getBezierPoint b p0 p1 p2 p3).x

/-- A concrete flat two-anchor curve state used by witnesses. -/
def exampleFlatState : EditorState :=
  ⟨[⟨0, 0⟩, ⟨10, 0⟩], [⟨3, 0, 7, 0⟩], noSelection, false, 0, 0⟩

/-- Concrete host globals used by witnesses (canvas 10 by 10, device
pixel ratio 1, four output columns, identity quantization). -/
def exampleGlobals : Globals := ⟨10, 10, 1, 4, 1, 1, 5, 0, id⟩

/-- A concrete dragging state selecting the first anchor, used by
witnesses. -/
def dragStateFirst : EditorState :=
  ⟨[⟨0, 1⟩, ⟨10, 2⟩], [⟨3, 3, 7, 4⟩], ⟨some SelKind.anchor, 0, 0⟩, true, 0, 0⟩

/-- A concrete dragging state selecting the last anchor, used by
witnesses. -/
def dragStateLast : EditorState :=
  ⟨[⟨0, 1⟩, ⟨10, 2⟩], [⟨3, 3, 7, 4⟩], ⟨some SelKind.anchor, 1, 0⟩, true, 0, 0⟩

/-- A concrete dragging state selecting the interior anchor of a
three-anchor curve, used by witnesses. -/
def dragStateInterior : EditorState :=
  ⟨[⟨0, 0⟩, ⟨5, 5⟩, ⟨10, 0⟩], [⟨1, 1, 4, 4⟩, ⟨6, 6, 9, 9⟩],
    ⟨some SelKind.anchor, 1, 0⟩, true, 0, 0⟩

/-- Concrete host globals for the 300 by 100 canvas scenario (10 output
columns of width 30, identity quantization). -/
def sampleGlobals300 : Globals := ⟨300, 100, 1, 10, 30, 1, 50, 0, id⟩

/-- The freshly initialized editor state on the 300 by 100 canvas. -/
def initState300 : EditorState :=
  initializeBezier sampleGlobals300 ⟨[], [], noSelection, false, 0, 0⟩

/-- C1: De Casteljau subdivision is exact at the split parameter: the
endpoint of the first returned segment, the start point of the second
returned segment, and the Bernstein evaluation `getBezierPoint t` are all
equal (both coordinates), with no resampling. -/
theorem subdivideBezier_split_point_exact (p0 p1 p2 p3 : Point) (t : ℚ) :
    (subdivideBezier p0 p1 p2 p3 t).first.p3 =
      (subdivideBezier p0 p1 p2 p3 t).second.p0 ∧
    (subdivideBezier p0 p1 p2 p3 t).first.p3 = getBezierPoint t p0 p1 p2 p3 ∧
    (subdivideBezier p0 p1 p2 p3 t).second.p0 = getBezierPoint t p0 p1 p2 p3 := by
  refine ⟨rfl, ?_, ?_⟩ <;>
    · apply Point.ext <;> simp only [subdivideBezier, getBezierPoint] <;> ring

/-- At `t = 0` the Bernstein evaluation is the first control point. -/
theorem getBezierPoint_zero (p0 p1 p2 p3 : Point) :
    getBezierPoint 0 p0 p1 p2 p3 = p0 := by
  apply Point.ext <;> simp only [getBezierPoint] <;> ring

/-- At `t = 1` the Bernstein evaluation is the last control point. -/
theorem getBezierPoint_one (p0 p1 p2 p3 : Point) :
    getBezierPoint 1 p0 p1 p2 p3 = p3 := by
  apply Point.ext <;> simp only [getBezierPoint] <;> ring

/-- C2 (amended): when the target `x` is within tolerance of (or beyond)
the segment's x-extent, `findYatX` returns an endpoint Y directly, without
entering the bisection loop: `p0.y` at the low end of the extent, and
otherwise `p3.y` at the high end.  For an ascending segment
(`p0.x < p3.x`) the low end is `p0` itself, so this is the endpoint
nearest the target; for a descending segment the returned endpoint is the
one on the opposite side of the extent. -/
theorem findYatX_extent_endpoint (p0 p1 p2 p3 : Point) (x tol : ℚ) :
    (x ≤ min p0.x p3.x + tol → findYatX x p0 p1 p2 p3 tol = p0.y) ∧
    (¬ x ≤ min p0.x p3.x + tol → max p0.x p3.x - tol ≤ x →
      findYatX x p0 p1 p2 p3 tol = p3.y) ∧
    (p0.x < p3.x → min p0.x p3.x = p0.x ∧ max p0.x p3.x = p3.x) := by
  refine ⟨fun h => ?_, fun h1 h2 => ?_, fun h => ?_⟩
  · simp only [findYatX, if_pos h, getBezierPoint_zero]
  · simp only [findYatX, if_neg h1, if_pos h2, getBezierPoint_one]
  · exact ⟨min_eq_left h.le, max_eq_right h.le⟩

/-- Witness for the amended C2 theorem: on the ascending segment from
`(0, 7)` to `(3, 11)`, a target at or below the low extent returns `7` and
a target at or above the high extent returns `11`. -/
theorem findYatX_extent_endpoint_witness :
    ((0 : ℚ) ≤ min (0 : ℚ) 3 + 1 / 100 ∧
      findYatX 0 ⟨0, 7⟩ ⟨1, 8⟩ ⟨2, 9⟩ ⟨3, 11⟩ (1 / 100) = 7) ∧
    (¬ (10 : ℚ) ≤ min (0 : ℚ) 3 + 1 / 100 ∧ max (0 : ℚ) 3 - 1 / 100 ≤ 10 ∧
      findYatX 10 ⟨0, 7⟩ ⟨1, 8⟩ ⟨2, 9⟩ ⟨3, 11⟩ (1 / 100) = 11) := by
  refine ⟨⟨by norm_num, ?_⟩, by norm_num, by norm_num, ?_⟩
  · exact (findYatX_extent_endpoint ⟨0, 7⟩ ⟨1, 8⟩ ⟨2, 9⟩ ⟨3, 11⟩ 0 (1 / 100)).1
      (by norm_num)
  · exact (findYatX_extent_endpoint ⟨0, 7⟩ ⟨1, 8⟩ ⟨2, 9⟩ ⟨3, 11⟩ 10 (1 / 100)).2.1
      (by norm_num) (by norm_num)

/-- Counterexample to C2 as stated: on the descending segment from
`p0 = (10, 0)` to `p3 = (0, 5)`, the target `x = 0` lies at the low end of
the x-extent, whose nearest endpoint is `p3` (distance 0 versus 10), yet
`findYatX` returns `p0.y = 0`, not `p3.y = 5`. -/
theorem findYatX_nearest_endpoint_counterexample :
    (Point.mk 0 5).x < (Point.mk 10 0).x ∧
    (0 : ℚ) ≤ min (Point.mk 10 0).x (Point.mk 0 5).x + 1 / 100 ∧
    jsAbs (0 - (Point.mk 0 5).x) < jsAbs (0 - (Point.mk 10 0).x) ∧
    findYatX 0 ⟨10, 0⟩ ⟨7, 1⟩ ⟨3, 4⟩ ⟨0, 5⟩ (1 / 100) = (Point.mk 10 0).y ∧
    findYatX 0 ⟨10, 0⟩ ⟨7, 1⟩ ⟨3, 4⟩ ⟨0, 5⟩ (1 / 100) ≠ (Point.mk 0 5).y := by
  norm_num [findYatX, getBezierPoint, jsAbs]

/-- The sampling loop emits exactly one value per remaining column. -/
theorem sampleColumnsGo_length (g : Globals) (anchors : List Point)
    (controls : List ControlPair) :
    ∀ (n i segIdx : ℕ),
      (sampleColumnsGo g anchors controls n i segIdx).length = n := by
  intro n
  induction n with
  | zero => intro i segIdx; rfl
  | succ m ih =>
    intro i segIdx
    simp only [sampleColumnsGo, List.length_cons, ih]

/-- C8: for every curve state and every output length, the sampler's
output has length exactly `currentLength`; with fewer than two anchors the
whole output is filled with the default center value. -/
theorem generateWaveform_length_and_fallback (g : Globals) (s : EditorState) :
    (generateWaveformFromBezier g s).length = g.currentLength ∧
    (s.anchors.length < 2 →
      generateWaveformFromBezier g s =
        List.replicate g.currentLength g.currentCenterValue) := by
  constructor
  · by_cases h : s.anchors.length < 2
    · simp [generateWaveformFromBezier, if_pos h]
    · simp [generateWaveformFromBezier, if_neg h, sampleColumnsGo_length]
  · intro h
    simp [generateWaveformFromBezier, if_pos h]

/-- Witness for C8 at a concrete degenerate state: one anchor, output
length 3, center value 9; the output is `[9, 9, 9]` of length 3. -/
theorem generateWaveform_length_and_fallback_witness :
    (EditorState.mk [⟨0, 0⟩] [] noSelection false 0 0).anchors.length < 2 ∧
    generateWaveformFromBezier
        ⟨300, 100, 1, 3, 100, 1, 50, 9, id⟩
        (EditorState.mk [⟨0, 0⟩] [] noSelection false 0 0) =
      List.replicate 3 9 ∧
    (generateWaveformFromBezier ⟨300, 100, 1, 3, 100, 1, 50, 9, id⟩
        (EditorState.mk [⟨0, 0⟩] [] noSelection false 0 0)).length = 3 := by
  refine ⟨by norm_num, ?_, ?_⟩
  · exact (generateWaveform_length_and_fallback ⟨300, 100, 1, 3, 100, 1, 50, 9, id⟩
      (EditorState.mk [⟨0, 0⟩] [] noSelection false 0 0)).2 (by norm_num)
  · exact (generateWaveform_length_and_fallback ⟨300, 100, 1, 3, 100, 1, 50, 9, id⟩
      (EditorState.mk [⟨0, 0⟩] [] noSelection false 0 0)).1

/-- A property preserved by every step of a left fold holds of its
result. -/
theorem foldl_preserve {α β : Type} (C : β → Prop) (f : β → α → β) :
    ∀ (l : List α) (b : β), C b →
      (∀ acc a, a ∈ l → C acc → C (f acc a)) → C (l.foldl f b)
  | [], _, hb, _ => hb
  | a :: l, b, hb, hf =>
    foldl_preserve C f l (f b a) (hf b a (List.mem_cons_self a l) hb)
      (fun acc x hx hacc => hf acc x (List.mem_cons_of_mem a hx) hacc)

/-- The segment scan of `addBezierPoint` yields either the initial `-1`
or a segment index in range (below `anchors.length - 1`). -/
theorem bestSplitScan_segment_range (g : Globals) (pos : Point)
    (s : EditorState) :
    (bestSplitScan g pos s).2.2 = -1 ∨
    (0 ≤ (bestSplitScan g pos s).2.2 ∧
      ((bestSplitScan g pos s).2.2).toNat < s.anchors.length - 1) := by
  unfold bestSplitScan
  apply foldl_preserve
    (fun acc : ℚ × ℚ × ℤ =>
      acc.2.2 = -1 ∨ (0 ≤ acc.2.2 ∧ acc.2.2.toNat < s.anchors.length - 1))
  · exact Or.inl rfl
  · intro acc seg hseg hacc
    rw [List.mem_range] at hseg
    dsimp only
    split
    · right
      refine ⟨Int.ofNat_nonneg seg, ?_⟩
      simpa using hseg
    · exact hacc

/-- C3: `initializeBezier` establishes 2 anchors and 1 control pair, and
`addBezierPoint` preserves the invariant
`controls.length = anchors.length - 1`: a successful insertion adds
exactly one anchor and one control pair, and a rejected one changes
neither array. -/
theorem curve_arrays_invariant (g : Globals) (pos : Point)
    (s s0 : EditorState)
    (hinv : s.controls.length = s.anchors.length - 1) :
    (initializeBezier g s0).anchors.length = 2 ∧
    (initializeBezier g s0).controls.length = 1 ∧
    (addBezierPoint g pos s).controls.length =
      (addBezierPoint g pos s).anchors.length - 1 ∧
    ((addBezierPoint g pos s).anchors = s.anchors ∧
        (addBezierPoint g pos s).controls = s.controls ∨
      (addBezierPoint g pos s).anchors.length = s.anchors.length + 1 ∧
        (addBezierPoint g pos s).controls.length = s.controls.length + 1) := by
  have hscan := bestSplitScan_segment_range g pos s
  have key : ((addBezierPoint g pos s).anchors = s.anchors ∧
      (addBezierPoint g pos s).controls = s.controls) ∨
      ((addBezierPoint g pos s).anchors.length = s.anchors.length + 1 ∧
        (addBezierPoint g pos s).controls.length = s.controls.length + 1 ∧
        2 ≤ s.anchors.length) := by
    unfold addBezierPoint
    dsimp only
    rcases hscan with h | ⟨h0, hlt⟩
    · rw [if_pos h]
      exact Or.inl ⟨rfl, rfl⟩
    · rw [if_neg (by omega)]
      split
      · exact Or.inl ⟨rfl, rfl⟩
      · right
        have h2 : 2 ≤ s.anchors.length := by omega
        have hb1 : (bestSplitScan g pos s).2.2.toNat + 1 ≤ s.anchors.length := by
          omega
        have hb2 : (bestSplitScan g pos s).2.2.toNat + 1 ≤ s.controls.length := by
          omega
        refine ⟨?_, ?_, h2⟩
        · simp [List.length_insertIdx, hb1]
        · simp [List.length_set, List.length_insertIdx, hb2]
  rcases key with ⟨ha, hc⟩ | ⟨ha, hc, h2⟩
  · refine ⟨rfl, rfl, ?_, Or.inl ⟨ha, hc⟩⟩
    rw [hc, ha]
    exact hinv
  · refine ⟨rfl, rfl, ?_, Or.inr ⟨ha, hc⟩⟩
    rw [hc, ha]
    omega

/-- Witness for C3 at the concrete flat state (a click far from the curve,
so the insertion scan finds nothing): the invariant holds before and after
`addBezierPoint`. -/
theorem curve_arrays_invariant_witness :
    exampleFlatState.controls.length = exampleFlatState.anchors.length - 1 ∧
    (addBezierPoint exampleGlobals ⟨1000, 1000⟩ exampleFlatState).controls.length =
      (addBezierPoint exampleGlobals ⟨1000, 1000⟩ exampleFlatState).anchors.length - 1 ∧
    (initializeBezier exampleGlobals exampleFlatState).anchors.length = 2 ∧
    (initializeBezier exampleGlobals exampleFlatState).controls.length = 1 := by
  refine ⟨by norm_num [exampleFlatState], ?_, ?_, ?_⟩
  · exact (curve_arrays_invariant exampleGlobals ⟨1000, 1000⟩ exampleFlatState
      exampleFlatState (by norm_num [exampleFlatState])).2.2.1
  · exact (curve_arrays_invariant exampleGlobals ⟨1000, 1000⟩ exampleFlatState
      exampleFlatState (by norm_num [exampleFlatState])).1
  · exact (curve_arrays_invariant exampleGlobals ⟨1000, 1000⟩ exampleFlatState
      exampleFlatState (by norm_num [exampleFlatState])).2.1

/-- Reading a list at the index just written returns the written value. -/
theorem getD_set_self {α : Type} (l : List α) (i : ℕ) (a d : α)
    (h : i < l.length) : (l.set i a).getD i d = a := by
  simp [List.getD_eq_getElem?_getD, List.getElem?_set_self, h]

/-- Reading a list at a different index than the one written is
unchanged. -/
theorem getD_set_ne {α : Type} (l : List α) (i j : ℕ) (a d : α)
    (h : i ≠ j) : (l.set i a).getD j d = l.getD j d := by
  simp [List.getD_eq_getElem?_getD, List.getElem?_set_ne h]

/-- C5: a drag update of the first or last anchor never changes that
anchor's X coordinate, for any pointer position. -/
theorem endpoint_drag_pins_x (g : Globals) (pos : Point) (s : EditorState)
    (hdrag : s.isDraggingBezierPoint = true)
    (hkind : s.selectedPoint.kind = some SelKind.anchor)
    (hidx : s.selectedPoint.index = 0 ∨
      s.selectedPoint.index = (s.anchors.length : ℤ) - 1)
    (hlen : 0 < s.anchors.length) :
    ((bezierMouseMove g pos s).anchors.getD s.selectedPoint.index.toNat
        defaultPoint).x =
      (s.anchors.getD s.selectedPoint.index.toNat defaultPoint).x := by
  have hb : s.selectedPoint.index.toNat < s.anchors.length := by
    rcases hidx with h | h <;> omega
  unfold bezierMouseMove
  rw [if_neg (by simp [hdrag, hkind])]
  rw [hkind]
  dsimp only
  rw [if_pos ⟨rfl, hidx⟩]
  rw [getD_set_self _ _ _ _ hb]

/-- Witness for C5: dragging the first anchor of a concrete curve towards
`(5, 6)` leaves its X coordinate unchanged. -/
theorem endpoint_drag_pins_x_witness :
    dragStateFirst.isDraggingBezierPoint = true ∧
    dragStateFirst.selectedPoint.kind = some SelKind.anchor ∧
    (dragStateFirst.selectedPoint.index = 0 ∨
      dragStateFirst.selectedPoint.index =
        (dragStateFirst.anchors.length : ℤ) - 1) ∧
    0 < dragStateFirst.anchors.length ∧
    ((bezierMouseMove exampleGlobals ⟨5, 6⟩ dragStateFirst).anchors.getD
        dragStateFirst.selectedPoint.index.toNat defaultPoint).x =
      (dragStateFirst.anchors.getD dragStateFirst.selectedPoint.index.toNat
        defaultPoint).x := by
  refine ⟨rfl, rfl, Or.inl rfl, by norm_num [dragStateFirst], ?_⟩
  exact endpoint_drag_pins_x exampleGlobals ⟨5, 6⟩ dragStateFirst rfl rfl
    (Or.inl rfl) (by norm_num [dragStateFirst])

/-- C4: dragging an interior anchor `k` by `(dx, dy)` translates the
trailing control of the previous segment (`controls[k-1].cp2`) and the
leading control of the next segment (`controls[k].cp1`) by exactly
`(dx, dy)`, leaves the other control coordinate of each adjoining pair
unchanged, and leaves every other anchor and control pair unchanged. -/
theorem interior_anchor_drag_rigid (g : Globals) (pos : Point)
    (s : EditorState) (k : ℕ)
    (hdrag : s.isDraggingBezierPoint = true)
    (hkind : s.selectedPoint.kind = some SelKind.anchor)
    (hidx : s.selectedPoint.index = (k : ℤ))
    (hk0 : 0 < k) (hk1 : k + 1 < s.anchors.length)
    (hinv : s.controls.length = s.anchors.length - 1) :
    ((bezierMouseMove g pos s).controls.getD (k - 1) defaultControl).cp2x =
      (s.controls.getD (k - 1) defaultControl).cp2x +
        (((bezierMouseMove g pos s).anchors.getD k defaultPoint).x -
          (s.anchors.getD k defaultPoint).x) ∧
    ((bezierMouseMove g pos s).controls.getD (k - 1) defaultControl).cp2y =
      (s.controls.getD (k - 1) defaultControl).cp2y +
        (((bezierMouseMove g pos s).anchors.getD k defaultPoint).y -
          (s.anchors.getD k defaultPoint).y) ∧
    ((bezierMouseMove g pos s).controls.getD (k - 1) defaultControl).cp1x =
      (s.controls.getD (k - 1) defaultControl).cp1x ∧
    ((bezierMouseMove g pos s).controls.getD (k - 1) defaultControl).cp1y =
      (s.controls.getD (k - 1) defaultControl).cp1y ∧
    ((bezierMouseMove g pos s).controls.getD k defaultControl).cp1x =
      (s.controls.getD k defaultControl).cp1x +
        (((bezierMouseMove g pos s).anchors.getD k defaultPoint).x -
          (s.anchors.getD k defaultPoint).x) ∧
    ((bezierMouseMove g pos s).controls.getD k defaultControl).cp1y =
      (s.controls.getD k defaultControl).cp1y +
        (((bezierMouseMove g pos s).anchors.getD k defaultPoint).y -
          (s.anchors.getD k defaultPoint).y) ∧
    ((bezierMouseMove g pos s).controls.getD k defaultControl).cp2x =
      (s.controls.getD k defaultControl).cp2x ∧
    ((bezierMouseMove g pos s).controls.getD k defaultControl).cp2y =
      (s.controls.getD k defaultControl).cp2y ∧
    (∀ j : ℕ, j ≠ k →
      (bezierMouseMove g pos s).anchors.getD j defaultPoint =
        s.anchors.getD j defaultPoint) ∧
    (∀ j : ℕ, j ≠ k - 1 → j ≠ k →
      (bezierMouseMove g pos s).controls.getD j defaultControl =
        s.controls.getD j defaultControl) := by
  have hkc : k < s.controls.length := by omega
  have hka : k < s.anchors.length := by omega
  have hkc1 : k - 1 < s.controls.length := by omega
  have hne : k - 1 ≠ k := by omega
  have hne2 : k ≠ k - 1 := by omega
  have hdisj : ¬ ((k : ℤ) = 0 ∨ (k : ℤ) = (s.anchors.length : ℤ) - 1) := by
    rintro (h | h) <;> omega
  have h0 : (0 : ℤ) < (k : ℤ) := by exact_mod_cast hk0
  have hkc' : (k : ℤ) < (s.controls.length : ℤ) := by exact_mod_cast hkc
  unfold bezierMouseMove
  rw [if_neg (by simp [hdrag, hkind])]
  rw [hkind, hidx]
  dsimp only
  simp only [Int.toNat_natCast, true_and, if_neg hdisj, if_pos h0,
    if_pos hkc']
  simp only [getD_set_ne _ _ _ _ _ hne, getD_set_ne _ _ _ _ _ hne2,
    getD_set_self, List.length_set, hkc, hka, hkc1]
  refine ⟨trivial, trivial, trivial, trivial, trivial, trivial, trivial,
    trivial, ?_, ?_⟩
  · intro j hj
    simp only [getD_set_ne _ _ _ _ _ (Ne.symm hj)]
  · intro j hj1 hj2
    simp only [getD_set_ne _ _ _ _ _ (Ne.symm hj2),
      getD_set_ne _ _ _ _ _ (Ne.symm hj1)]

/-- Witness for C4: dragging the interior anchor of a concrete curve to
`(6, 7)` translates the trailing control of the previous segment by the
anchor's movement and leaves anchor 0 in place. -/
theorem interior_anchor_drag_rigid_witness :
    dragStateInterior.isDraggingBezierPoint = true ∧
    dragStateInterior.selectedPoint.kind = some SelKind.anchor ∧
    dragStateInterior.selectedPoint.index = (1 : ℤ) ∧
    0 < 1 ∧ 1 + 1 < dragStateInterior.anchors.length ∧
    dragStateInterior.controls.length =
      dragStateInterior.anchors.length - 1 ∧
    ((bezierMouseMove exampleGlobals ⟨6, 7⟩ dragStateInterior).controls.getD 0
        defaultControl).cp2x =
      (dragStateInterior.controls.getD 0 defaultControl).cp2x +
        (((bezierMouseMove exampleGlobals ⟨6, 7⟩
              dragStateInterior).anchors.getD 1 defaultPoint).x -
          (dragStateInterior.anchors.getD 1 defaultPoint).x) ∧
    (bezierMouseMove exampleGlobals ⟨6, 7⟩ dragStateInterior).anchors.getD 0
        defaultPoint =
      dragStateInterior.anchors.getD 0 defaultPoint := by
  refine ⟨rfl, rfl, rfl, by norm_num, by norm_num [dragStateInterior],
    by norm_num [dragStateInterior], ?_, ?_⟩
  · exact (interior_anchor_drag_rigid exampleGlobals ⟨6, 7⟩ dragStateInterior 1
      rfl rfl rfl (by norm_num) (by norm_num [dragStateInterior])
      (by norm_num [dragStateInterior])).1
  · exact (interior_anchor_drag_rigid exampleGlobals ⟨6, 7⟩ dragStateInterior 1
      rfl rfl rfl (by norm_num) (by norm_num [dragStateInterior])
      (by norm_num [dragStateInterior])).2.2.2.2.2.2.2.2.1 0 (by norm_num)

/-- C10: when the first (or last) anchor is dragged, its adjoining
control point (`controls[0].cp1` for anchor 0, `controls[last].cp2` for
the last anchor) is translated by the anchor's clamped vertical movement,
while that control point's X coordinate is unchanged (the X delta is zero
because the anchor's X is pinned before the delta is computed). -/
theorem endpoint_drag_moves_handle (g : Globals) (pos : Point)
    (s : EditorState)
    (hdrag : s.isDraggingBezierPoint = true)
    (hkind : s.selectedPoint.kind = some SelKind.anchor)
    (hinv : s.controls.length = s.anchors.length - 1)
    (hlen : 2 ≤ s.anchors.length) :
    (s.selectedPoint.index = 0 →
      ((bezierMouseMove g pos s).controls.getD 0 defaultControl).cp1x =
        (s.controls.getD 0 defaultControl).cp1x ∧
      ((bezierMouseMove g pos s).controls.getD 0 defaultControl).cp1y =
        (s.controls.getD 0 defaultControl).cp1y +
          (((bezierMouseMove g pos s).anchors.getD 0 defaultPoint).y -
            (s.anchors.getD 0 defaultPoint).y)) ∧
    (s.selectedPoint.index = (s.anchors.length : ℤ) - 1 →
      ((bezierMouseMove g pos s).controls.getD (s.controls.length - 1)
          defaultControl).cp2x =
        (s.controls.getD (s.controls.length - 1) defaultControl).cp2x ∧
      ((bezierMouseMove g pos s).controls.getD (s.controls.length - 1)
          defaultControl).cp2y =
        (s.controls.getD (s.controls.length - 1) defaultControl).cp2y +
          (((bezierMouseMove g pos s).anchors.getD (s.anchors.length - 1)
              defaultPoint).y -
            (s.anchors.getD (s.anchors.length - 1) defaultPoint).y)) := by
  constructor
  · intro hidx
    have hc0 : (0 : ℤ) < (s.controls.length : ℤ) := by omega
    have hcl : 0 < s.controls.length := by omega
    have ha0 : 0 < s.anchors.length := by omega
    unfold bezierMouseMove
    rw [if_neg (by simp [hdrag, hkind])]
    rw [hkind, hidx]
    dsimp only
    simp only [Int.toNat_zero, true_and, eq_self_iff_true, true_or, if_pos,
      lt_irrefl, if_neg, hc0, if_true, lt_self_iff_false, if_false]
    simp only [getD_set_self _ _ _ _ hcl, getD_set_self _ _ _ _ ha0]
    constructor
    · ring
    · trivial
  · intro hidx
    have ht : ((s.anchors.length : ℤ) - 1).toNat = s.anchors.length - 1 := by
      omega
    have hpos : (0 : ℤ) < (s.anchors.length : ℤ) - 1 := by omega
    have hnlt : ¬ ((s.anchors.length : ℤ) - 1 < (s.controls.length : ℤ)) := by
      omega
    have heq : s.anchors.length - 1 - 1 = s.controls.length - 1 := by omega
    have hcl2 : s.controls.length - 1 < s.controls.length := by omega
    have hal : s.anchors.length - 1 < s.anchors.length := by omega
    unfold bezierMouseMove
    rw [if_neg (by simp [hdrag, hkind])]
    rw [hkind, hidx]
    dsimp only
    simp only [ht, heq, true_and, eq_self_iff_true, or_true, if_pos, hpos,
      if_neg hnlt, if_true]
    simp only [getD_set_self _ _ _ _ hcl2, getD_set_self _ _ _ _ hal]
    constructor
    · ring
    · trivial

/-- Witness for C10 at concrete states: dragging the first anchor of a
two-anchor curve to `(4, 9)` leaves `controls[0].cp1x` unchanged, and
dragging the last anchor likewise pins `controls[0].cp2x`. -/
theorem endpoint_drag_moves_handle_witness :
    (dragStateFirst.isDraggingBezierPoint = true ∧
      dragStateFirst.selectedPoint.kind = some SelKind.anchor ∧
      dragStateFirst.controls.length = dragStateFirst.anchors.length - 1 ∧
      2 ≤ dragStateFirst.anchors.length ∧
      dragStateFirst.selectedPoint.index = 0 ∧
      ((bezierMouseMove exampleGlobals ⟨4, 9⟩ dragStateFirst).controls.getD 0
          defaultControl).cp1x =
        (dragStateFirst.controls.getD 0 defaultControl).cp1x) ∧
    (dragStateLast.selectedPoint.index =
        (dragStateLast.anchors.length : ℤ) - 1 ∧
      ((bezierMouseMove exampleGlobals ⟨4, 9⟩ dragStateLast).controls.getD
          (dragStateLast.controls.length - 1) defaultControl).cp2x =
        (dragStateLast.controls.getD (dragStateLast.controls.length - 1)
          defaultControl).cp2x) := by
  refine ⟨⟨rfl, rfl, by norm_num [dragStateFirst],
    by norm_num [dragStateFirst], rfl, ?_⟩, ⟨by norm_num [dragStateLast], ?_⟩⟩
  · exact ((endpoint_drag_moves_handle exampleGlobals ⟨4, 9⟩ dragStateFirst rfl
      rfl (by norm_num [dragStateFirst]) (by norm_num [dragStateFirst])).1
      rfl).1
  · exact ((endpoint_drag_moves_handle exampleGlobals ⟨4, 9⟩ dragStateLast rfl
      rfl (by norm_num [dragStateLast]) (by norm_num [dragStateLast])).2
      (by norm_num [dragStateLast])).1

/-- The bisection loop's parameter state stays inside `[0, 1]`, and so
does its result. -/
theorem findYatXGo_mem_Icc (x : ℚ) (p0 p1 p2 p3 : Point) (tol : ℚ) :
    ∀ (fuel : ℕ) (l h m : ℚ), 0 ≤ l → l ≤ 1 → 0 ≤ h → h ≤ 1 →
      0 ≤ m → m ≤ 1 →
      0 ≤ findYatXGo x p0 p1 p2 p3 tol fuel l h m ∧
      findYatXGo x p0 p1 p2 p3 tol fuel l h m ≤ 1 := by
  intro fuel
  induction fuel with
  | zero =>
    intro l h m _ _ _ _ hm0 hm1
    exact ⟨hm0, hm1⟩
  | succ n ih =>
    intro l h m hl0 hl1 hh0 hh1 hm0 hm1
    rw [findYatXGo]
    dsimp only
    split
    · exact ⟨hm0, hm1⟩
    · split <;> split <;>
        exact ih _ _ _ (by linarith) (by linarith) (by linarith) (by linarith)
          (by linarith) (by linarith)

/-- Every value `findYatX` returns is the exact Y coordinate of some
point on the curve, at a parameter in `[0, 1]`. -/
theorem findYatX_exists_parameter (x : ℚ) (p0 p1 p2 p3 : Point) (tol : ℚ) :
    ∃ t : ℚ, 0 ≤ t ∧ t ≤ 1 ∧
      findYatX x p0 p1 p2 p3 tol = (getBezierPoint t p0 p1 p2 p3).y := by
  unfold findYatX
  dsimp only
  split
  · exact ⟨0, le_refl 0, by norm_num, rfl⟩
  · split
    · exact ⟨1, by norm_num, le_refl 1, rfl⟩
    · obtain ⟨h0, h1⟩ := findYatXGo_mem_Icc x p0 p1 p2 p3 tol max_iterations
        0 1 (1 / 2) (by norm_num) (by norm_num) (by norm_num) (by norm_num)
        (by norm_num) (by norm_num)
      exact ⟨_, h0, h1, rfl⟩

/-- On a segment whose four control points share one Y value, `findYatX`
returns that value for every target. -/
theorem findYatX_flat (x tol x0 x1 x2 x3 c : ℚ) :
    findYatX x ⟨x0, c⟩ ⟨x1, c⟩ ⟨x2, c⟩ ⟨x3, c⟩ tol = c := by
  obtain ⟨t, -, -, ht⟩ := findYatX_exists_parameter x ⟨x0, c⟩ ⟨x1, c⟩
    ⟨x2, c⟩ ⟨x3, c⟩ tol
  rw [ht]
  simp only [getBezierPoint]
  ring

/-- C7 (amended): the Y-error of the `findYatX` round trip is not bounded
by the tolerance in general (see the counterexample); what holds is that
the returned value is always the exact Y of some curve point
`getBezierPoint t` with `t` in `[0, 1]` (the bisection controls the X
error, not the Y error, and targets within tolerance of the x-extent get
an endpoint's Y). -/
theorem findYatX_roundtrip_on_curve (x tol : ℚ) (p0 p1 p2 p3 : Point) :
    ∃ t : ℚ, 0 ≤ t ∧ t ≤ 1 ∧
      findYatX x p0 p1 p2 p3 tol = (getBezierPoint t p0 p1 p2 p3).y :=
  findYatX_exists_parameter x p0 p1 p2 p3 tol

/-- Counterexample to C7 as stated: the segment from `(0, 0)` to
`(1, 100)` with controls `(1/3, 100)` and `(2/3, 100)` has strictly
monotonic X (indeed `x(t) = t`), and at `t0 = 1/200` the target
`x(t0) = 1/200` lies within tolerance of the low extent, so `findYatX`
returns `p0.y = 0` while the true `y(t0)` is about `1.49` — an error far
beyond the 0.01 tolerance. -/
theorem findYatX_roundtrip_counterexample :
    strictMonoXOn ⟨0, 0⟩ ⟨1/3, 100⟩ ⟨2/3, 100⟩ ⟨1, 100⟩ ∧
    (0 : ℚ) < 1/200 ∧ (1/200 : ℚ) < 1 ∧
    ¬ (jsAbs (findYatX
        (getBezierPoint (1/200) ⟨0, 0⟩ ⟨1/3, 100⟩ ⟨2/3, 100⟩ ⟨1, 100⟩).x
        ⟨0, 0⟩ ⟨1/3, 100⟩ ⟨2/3, 100⟩ ⟨1, 100⟩ (1/100) -
        (getBezierPoint (1/200) ⟨0, 0⟩ ⟨1/3, 100⟩ ⟨2/3, 100⟩ ⟨1, 100⟩).y)
      ≤ 1/100) := by
  have hx : ∀ t : ℚ,
      (getBezierPoint t ⟨0, 0⟩ ⟨1/3, 100⟩ ⟨2/3, 100⟩ ⟨1, 100⟩).x = t := by
    intro t
    simp only [getBezierPoint]
    ring
  refine ⟨?_, by norm_num, by norm_num, ?_⟩
  · intro a b _ hab _
    rw [hx, hx]
    exact hab
  · rw [hx]
    norm_num [findYatX, getBezierPoint, jsAbs]

/-- C9: after initializing on a 300 by 100 canvas the anchors are exactly
`[(0,50), (300,50)]` and the single control pair is `(100,50,200,50)`;
sampling 10 columns then yields 10 identical values, each the
quantization of `(100 - 50) / stepHeight`. -/
theorem init_scenario_flat_output (stepH : ℚ) (quant : ℚ → ℚ)
    (s0 : EditorState) :
    (initializeBezier ⟨300, 100, 1, 10, 30, stepH, 50, 0, quant⟩ s0).anchors =
      [⟨0, 50⟩, ⟨300, 50⟩] ∧
    (initializeBezier ⟨300, 100, 1, 10, 30, stepH, 50, 0, quant⟩ s0).controls =
      [⟨100, 50, 200, 50⟩] ∧
    generateWaveformFromBezier ⟨300, 100, 1, 10, 30, stepH, 50, 0, quant⟩
        (initializeBezier ⟨300, 100, 1, 10, 30, stepH, 50, 0, quant⟩ s0) =
      List.replicate 10 (quant ((100 - 50) / stepH)) := by
  refine ⟨by norm_num [initializeBezier], by norm_num [initializeBezier], ?_⟩
  norm_num [initializeBezier, generateWaveformFromBezier, sampleColumnsGo,
    columnY, advanceSegIdx, findYatX_flat, jsAbs, List.getD_cons_zero,
    List.getD_cons_succ, List.replicate, min_def, max_def]

/-- C6: when the insertion scan does select a segment but the computed
split point lies at squared distance less than 1 from either endpoint
anchor of that segment, `addBezierPoint` is a no-op: the whole editor
state (anchors, controls and selection included) is returned unchanged. -/
theorem insertion_too_close_rejected (g : Globals) (pos : Point)
    (s : EditorState)
    (hseg : (bestSplitScan g pos s).2.2 ≠ -1)
    (hclose : distSq (splitCandidate g pos s)
        (s.anchors.getD (bestSplitScan g pos s).2.2.toNat defaultPoint) < 1 ∨
      distSq (splitCandidate g pos s)
        (s.anchors.getD ((bestSplitScan g pos s).2.2.toNat + 1)
          defaultPoint) < 1) :
    addBezierPoint g pos s = s := by
  have hclose' := hclose
  unfold splitCandidate at hclose'
  dsimp only at hclose'
  unfold addBezierPoint
  dsimp only
  rw [if_neg hseg, if_pos hclose']

set_option maxHeartbeats 4000000 in
set_option maxRecDepth 10000 in
/-- Witness for C6: clicking at `(0, 50)` on the freshly initialized
300 by 100 curve selects segment 0 at `t = 0`, whose split point
coincides with the first anchor; the insertion is rejected and the state
is unchanged. -/
theorem insertion_too_close_rejected_witness :
    (bestSplitScan sampleGlobals300 ⟨0, 50⟩ initState300).2.2 ≠ -1 ∧
    distSq (splitCandidate sampleGlobals300 ⟨0, 50⟩ initState300)
      (initState300.anchors.getD
        (bestSplitScan sampleGlobals300 ⟨0, 50⟩ initState300).2.2.toNat
        defaultPoint) < 1 ∧
    addBezierPoint sampleGlobals300 ⟨0, 50⟩ initState300 = initState300 := by
  have hrange : List.range 30 = [0, 1, 2, 3, 4, 5, 6, 7, 8, 9, 10, 11, 12,
      13, 14, 15, 16, 17, 18, 19, 20, 21, 22, 23, 24, 25, 26, 27, 28, 29] :=
    rfl
  have hrange1 : List.range 1 = [0] := rfl
  have hscan : (bestSplitScan sampleGlobals300 ⟨0, 50⟩ initState300) =
      (0, 0, 0) := by
    norm_num [bestSplitScan, initState300, initializeBezier, sampleGlobals300,
      hitThreshold, findClosestPointOnSegment, hrange, getBezierPoint, distSq,
      List.getD_cons_zero, List.getD_cons_succ, hrange1,
      List.foldl_cons, List.foldl_nil]
  have h1 : (bestSplitScan sampleGlobals300 ⟨0, 50⟩ initState300).2.2 ≠ -1 := by
    rw [hscan]
    norm_num
  have h2 : distSq (splitCandidate sampleGlobals300 ⟨0, 50⟩ initState300)
      (initState300.anchors.getD
        (bestSplitScan sampleGlobals300 ⟨0, 50⟩ initState300).2.2.toNat
        defaultPoint) < 1 := by
    unfold splitCandidate
    dsimp only
    rw [hscan]
    norm_num [subdivideBezier, distSq, initState300, initializeBezier,
      sampleGlobals300, List.getD_cons_zero, List.getD_cons_succ]
  exact ⟨h1, h2, insertion_too_close_rejected sampleGlobals300 ⟨0, 50⟩
    initState300 h1 (Or.inl h2)⟩

end BezierEditor
